import Mathlib

/-!
Shallow embedding of the lifx-rs repository core: the LIFX LAN wire codec
(lifx-proto: header, label, color, message catalog) and the client layer
(lifx-client: any_message dispatch, frame codec, connection engine).

Byte buffers are modelled as `List Nat`, each element one octet.
Little-endian integer fields are written by splitting into octets with
division and remainder, exactly as the `bytes` crate `put_u16_le` /
`put_u32_le` primitives do. Fallible decoding returns `Except LifxError`.
-/

namespace Lifx

/-- Decidable equality for `Except`, used to evaluate decoders on
concrete inputs. -/
instance {ε α : Type} [DecidableEq ε] [DecidableEq α] : DecidableEq (Except ε α) :=
  fun a b =>
    match a, b with
    | .ok x, .ok y =>
      if h : x = y then .isTrue (by rw [h])
      else .isFalse (fun g => h (Except.ok.inj g))
    | .error x, .error y =>
      if h : x = y then .isTrue (by rw [h])
      else .isFalse (fun g => h (Except.error.inj g))
    | .ok _, .error _ => .isFalse (fun g => Except.noConfusion g)
    | .error _, .ok _ => .isFalse (fun g => Except.noConfusion g)

/-- Little-endian byte splitting of a 16-bit value, as `put_u16_le`. -/
def u16le (n : Nat) : List Nat := [n % 256, n / 256 % 256]

/-- Little-endian byte splitting of a 32-bit value, as `put_u32_le`. -/
def u32le (n : Nat) : List Nat :=
  [n % 256, n / 256 % 256, n / 65536 % 256, n / 16777216 % 256]

/-- `MessageType` from lifx-proto/src/message.rs (identical to the
enumeration of the missing wire.rs module, per the spec catalog). -/
inductive MessageType where
  | getService
  | stateService
  | getLabel
  | setLabel
  | stateLabel
  | acknowledgement
  | get
  | setColor
  | state
  | other (value : Nat)
  deriving DecidableEq, Repr

/-- `impl From<u16> for MessageType` (match on the nine named codes,
catch-all `Other`). -/
def MessageType.ofU16 (value : Nat) : MessageType :=
  if value = 2 then .getService
  else if value = 3 then .stateService
  else if value = 23 then .getLabel
  else if value = 24 then .setLabel
  else if value = 25 then .stateLabel
  else if value = 45 then .acknowledgement
  else if value = 101 then .get
  else if value = 102 then .setColor
  else if value = 107 then .state
  else .other value

/-- `impl Into<u16> for MessageType`. -/
def MessageType.toU16 : MessageType → Nat
  | .getService => 2
  | .stateService => 3
  | .getLabel => 23
  | .setLabel => 24
  | .stateLabel => 25
  | .acknowledgement => 45
  | .get => 101
  | .setColor => 102
  | .state => 107
  | .other value => value

/-- Error type covering the failure variants of `ProtocolError` /
`LifxError` / `WireError` in the source that the claims mention.
`packetTooLarge` stands for the `io::ErrorKind::InvalidData` framing error
raised by `Codec::decode` for oversize frames. -/
inductive LifxError where
  | insufficientData (available needed : Nat)
  | invalidProtocol (n : Nat)
  | invalidOrigin (n : Nat)
  | notAddressable
  | invalidLabel
  | invalidPayload (kelvin : Nat)
  | unexpectedMessage (messageType : MessageType)
  | packetTooLarge (size : Nat)
  deriving DecidableEq, Repr

/-- `Service` from message.rs / device.rs. -/
inductive Service where
  | udp
  | unknown (id : Nat)
  deriving DecidableEq, Repr

/-- `impl Into<u8> for Service`. -/
def Service.toU8 : Service → Nat
  | .udp => 1
  | .unknown id => id

/-- `impl From<u8> for Service`. -/
def Service.ofU8 (value : Nat) : Service :=
  if value = 1 then .udp else .unknown value

/-- 6-byte MAC hardware address (`macaddr::MacAddr6`). -/
structure MacAddr6 where
  b0 : Nat
  b1 : Nat
  b2 : Nat
  b3 : Nat
  b4 : Nat
  b5 : Nat
  deriving DecidableEq, Repr

def MacAddr6.toBytes (m : MacAddr6) : List Nat :=
  [m.b0, m.b1, m.b2, m.b3, m.b4, m.b5]

/-- `DeviceTarget` from header.rs. -/
inductive DeviceTarget where
  | all
  | targeted (mac : MacAddr6)
  deriving DecidableEq, Repr

/-- `Header` from header.rs (the same field set as the `MessageHeader` of
the missing wire.rs module). `sequence` is a u8, `size` a u16, `source` a
u32; integer fields are Nat with well-formedness bounds tracked
separately. -/
structure Header where
  size : Nat
  source : Nat
  target : DeviceTarget
  responseRequired : Bool
  acknowledgementRequired : Bool
  sequence : Nat
  messageType : MessageType
  deriving DecidableEq, Repr

/-- The machine-integer bounds guaranteed by the Rust field types. -/
def Header.wf (h : Header) : Prop :=
  h.size < 65536 ∧ h.source < 4294967296 ∧ h.sequence < 256

namespace Header

/-- `Header::HEADER_SIZE`. -/
def HEADER_SIZE : Nat := 36

/-- `Header::PROTOCOL_NUMBER`. -/
def PROTOCOL_NUMBER : Nat := 1024

/-- `Header::encode`: size, packed protocol-flags word (protocol 1024,
addressable bit 12, tagged bit 13 iff target is All), source, 8-byte
target block, 6 reserved bytes, packed address-flags byte, sequence,
8 reserved bytes, message type, 2 reserved bytes. -/
def encode (h : Header) : List Nat :=
  let protoFlags : Nat :=
    PROTOCOL_NUMBER + 4096 + (match h.target with | .all => 8192 | .targeted _ => 0)
  let addressFlags : Nat :=
    (if h.responseRequired then 1 else 0) + (if h.acknowledgementRequired then 2 else 0)
  let targetBytes : List Nat :=
    match h.target with
    | .all => [0, 0, 0, 0, 0, 0, 0, 0]
    | .targeted m => m.toBytes ++ [0, 0]
  u16le h.size ++ u16le protoFlags ++ u32le h.source ++ targetBytes ++
    [0, 0, 0, 0, 0, 0] ++ [addressFlags, h.sequence] ++ [0, 0, 0, 0, 0, 0, 0, 0] ++
    u16le (MessageType.toU16 h.messageType) ++ [0, 0]

/-- `Header::decode`: reads the 36 header bytes in order, validating the
protocol number (low 12 bits), origin (bits 14..16) and addressable bit
(bit 12); the target is All when the tagged bit (13) is set, otherwise the
first six target bytes. Reserved regions are skipped. A too-short buffer
is reported as insufficient data (the Rust `bytes::Buf` getters panic
there). -/
def decode : List Nat → Except LifxError (Header × List Nat)
  | s0 :: s1 :: f0 :: f1 :: a0 :: a1 :: a2 :: a3 ::
    t0 :: t1 :: t2 :: t3 :: t4 :: t5 :: _t6 :: _t7 ::
    _r0 :: _r1 :: _r2 :: _r3 :: _r4 :: _r5 ::
    fl :: sq ::
    _p0 :: _p1 :: _p2 :: _p3 :: _p4 :: _p5 :: _p6 :: _p7 ::
    m0 :: m1 :: _z0 :: _z1 :: rest =>
    let size := s0 + 256 * s1
    let protoFlags := f0 + 256 * f1
    -- get_bit i of a word w is w / 2^i % 2; get_bits 14..16 is w / 2^14 % 4
    let protocol := protoFlags % 4096
    if protocol ≠ PROTOCOL_NUMBER then .error (.invalidProtocol protocol)
    else
      let origin := protoFlags / 16384 % 4
      if origin ≠ 0 then .error (.invalidOrigin origin)
      else if protoFlags / 4096 % 2 ≠ 1 then .error .notAddressable
      else
        let source := a0 + 256 * a1 + 65536 * a2 + 16777216 * a3
        let target :=
          if protoFlags / 8192 % 2 = 1 then DeviceTarget.all
          else DeviceTarget.targeted ⟨t0, t1, t2, t3, t4, t5⟩
        .ok ({ size := size
               source := source
               target := target
               responseRequired := decide (fl % 2 = 1)
               acknowledgementRequired := decide (fl / 2 % 2 = 1)
               sequence := sq
               messageType := MessageType.ofU16 (m0 + 256 * m1) }, rest)
  | buf => .error (.insufficientData buf.length HEADER_SIZE)

end Header

/-- UTF-8 validation automaton. The first argument is the stack of byte
ranges still expected to finish the current multi-byte sequence; a lead
byte pushes the ranges of its continuation bytes (RFC 3629 table, the one
Rust `String::from_utf8` enforces: overlong forms, surrogates and values
above U+10FFFF are rejected via the constrained second byte). -/
def utf8Run : List (Nat × Nat) → List Nat → Bool
  | [], [] => true
  | _ :: _, [] => false
  | [], b :: rest =>
    if b ≤ 127 then utf8Run [] rest
    else if 194 ≤ b ∧ b ≤ 223 then utf8Run [(128, 191)] rest
    else if b = 224 then utf8Run [(160, 191), (128, 191)] rest
    else if 225 ≤ b ∧ b ≤ 236 then utf8Run [(128, 191), (128, 191)] rest
    else if b = 237 then utf8Run [(128, 159), (128, 191)] rest
    else if 238 ≤ b ∧ b ≤ 239 then utf8Run [(128, 191), (128, 191)] rest
    else if b = 240 then utf8Run [(144, 191), (128, 191), (128, 191)] rest
    else if 241 ≤ b ∧ b ≤ 243 then utf8Run [(128, 191), (128, 191), (128, 191)] rest
    else if b = 244 then utf8Run [(128, 143), (128, 191), (128, 191)] rest
    else false
  | (lo, hi) :: stack, b :: rest =>
    if lo ≤ b ∧ b ≤ hi then utf8Run stack rest else false

/-- UTF-8 validity of a byte sequence, as checked by Rust
`String::from_utf8`. -/
def validUtf8 (bytes : List Nat) : Bool := utf8Run [] bytes

/-- `Label` from label.rs: a newtype over a Rust `String`, modelled by its
UTF-8 byte sequence. -/
structure Label where
  bytes : List Nat
  deriving DecidableEq, Repr

namespace Label

/-- `Label::MAX_LENGTH`. -/
def MAX_LENGTH : Nat := 32

/-- The invariants guaranteed by the Rust type: the contents are valid
UTF-8 (it is a `String`) and at most 32 bytes (`Label::try_from`). -/
def wf (l : Label) : Prop :=
  validUtf8 l.bytes = true ∧ l.bytes.length ≤ MAX_LENGTH

/-- `Label::encode`: the raw bytes followed by NUL padding up to 32 bytes.
(The `remaining_mut` guard in the source never fires against the growable
`BytesMut` buffers the crate uses, so encoding is modelled as total.) -/
def encode (l : Label) : List Nat :=
  l.bytes ++ List.replicate (MAX_LENGTH - l.bytes.length) 0

/-- `Label::decode`: takes exactly 32 bytes and validates them as UTF-8.
No trailing NUL bytes are removed. -/
def decode (buf : List Nat) : Except LifxError (Label × List Nat) :=
  if buf.length < MAX_LENGTH then
    .error (.insufficientData buf.length MAX_LENGTH)
  else
    let bytes := buf.take MAX_LENGTH
    if validUtf8 bytes then .ok (⟨bytes⟩, buf.drop MAX_LENGTH)
    else .error .invalidLabel

/-- The label a wire round trip actually produces: the original bytes
padded with NULs to 32 bytes (decoding does not strip the padding). -/
def normalize (l : Label) : Label :=
  ⟨l.bytes ++ List.replicate (MAX_LENGTH - l.bytes.length) 0⟩

end Label

/-- `Hsbk` from color.rs. `temperature` is the value wrapped in the
`Kelvin` newtype; the range invariant enforced by `Kelvin::try_from` is
tracked in `Hsbk.wf`. -/
structure Hsbk where
  hue : Nat
  saturation : Nat
  brightness : Nat
  temperature : Nat
  deriving DecidableEq, Repr

namespace Hsbk

/-- `Hsbk::SIZE`. -/
def SIZE : Nat := 8

/-- Field bounds from the u16 representation plus the `Kelvin`
construction invariant (`Kelvin::try_from` accepts 2500..=9000). -/
def wf (h : Hsbk) : Prop :=
  h.hue < 65536 ∧ h.saturation < 65536 ∧ h.brightness < 65536 ∧
    2500 ≤ h.temperature ∧ h.temperature ≤ 9000

/-- `Hsbk::encode`: four u16 little-endian fields. -/
def encode (h : Hsbk) : List Nat :=
  u16le h.hue ++ u16le h.saturation ++ u16le h.brightness ++ u16le h.temperature

/-- `Hsbk::decode`: reads the four u16 fields, validating the temperature
through `Kelvin::try_from`; an out-of-range value becomes
`ProtocolError::InvalidPayload`. -/
def decode : List Nat → Except LifxError (Hsbk × List Nat)
  | h0 :: h1 :: s0 :: s1 :: b0 :: b1 :: k0 :: k1 :: rest =>
    let temperature := k0 + 256 * k1
    if 2500 ≤ temperature ∧ temperature ≤ 9000 then
      .ok ({ hue := h0 + 256 * h1
             saturation := s0 + 256 * s1
             brightness := b0 + 256 * b1
             temperature := temperature }, rest)
    else .error (.invalidPayload temperature)
  | buf => .error (.insufficientData buf.length SIZE)

end Hsbk

/-- `Message` from message.rs (payload structs flattened into constructor
arguments). `durationNanos` models `std::time::Duration` by its total
nanosecond count. -/
inductive Message where
  | getService
  | stateService (service : Service) (port : Nat)
  | getLabel
  | setLabel (label : Label)
  | stateLabel (label : Label)
  | acknowledgement
  | get
  | setColor (color : Hsbk) (durationNanos : Nat)
  | state (color : Hsbk) (power : Nat) (label : Label)
  deriving DecidableEq, Repr

namespace Message

/-- `Message::message_type`. -/
def messageType : Message → MessageType
  | .getService => .getService
  | .stateService _ _ => .stateService
  | .getLabel => .getLabel
  | .setLabel _ => .setLabel
  | .stateLabel _ => .stateLabel
  | .acknowledgement => .acknowledgement
  | .get => .get
  | .setColor _ _ => .setColor
  | .state _ _ _ => .state

/-- `Message::payload_size`. -/
def payloadSize : Message → Nat
  | .getService => 0
  | .stateService _ _ => 5
  | .getLabel => 0
  | .setLabel _ => Label.MAX_LENGTH
  | .stateLabel _ => Label.MAX_LENGTH
  | .acknowledgement => 0
  | .get => 0
  | .setColor _ _ => 1 + Hsbk.SIZE + 4
  | .state _ _ _ => Hsbk.SIZE + 2 + 2 + Label.MAX_LENGTH + 8

/-- Machine-integer bounds guaranteed by the Rust field types. -/
def wf : Message → Prop
  | .getService => True
  | .stateService service port =>
    (match service with | .udp => True | .unknown id => id < 256) ∧ port < 4294967296
  | .getLabel => True
  | .setLabel label => label.wf
  | .stateLabel label => label.wf
  | .acknowledgement => True
  | .get => True
  | .setColor color _ => color.wf
  | .state color power label => color.wf ∧ power < 65536 ∧ label.wf

/-- `Message::encode_payload`. The `SetColor` duration is written as
`duration.as_millis() as u32` (truncating); `u32le` keeps only the low
32 bits, exactly like the cast. -/
def encodePayload : Message → List Nat
  | .getService => []
  | .stateService service port => Service.toU8 service :: u32le port
  | .getLabel => []
  | .setLabel label => label.encode
  | .stateLabel label => label.encode
  | .acknowledgement => []
  | .get => []
  | .setColor color durationNanos =>
    0 :: color.encode ++ u32le (durationNanos / 1000000)
  | .state color power label =>
    color.encode ++ [0, 0] ++ u16le power ++ label.encode ++ [0, 0, 0, 0, 0, 0, 0, 0]

/-- `Message::decode`: selects the branch by `header.message_type`;
unknown codes surface as `ProtocolError::UnexpectedMessage`. The decoded
`SetColor` duration is `Duration::from_millis` of the u32 read. -/
def decode (header : Header) (buf : List Nat) : Except LifxError (Message × List Nat) :=
  match header.messageType with
  | .getService => .ok (.getService, buf)
  | .stateService =>
    match buf with
    | sv :: p0 :: p1 :: p2 :: p3 :: rest =>
      .ok (.stateService (Service.ofU8 sv) (p0 + 256 * p1 + 65536 * p2 + 16777216 * p3),
           rest)
    | _ => .error (.insufficientData buf.length 5)
  | .getLabel => .ok (.getLabel, buf)
  | .setLabel =>
    match Label.decode buf with
    | .ok (label, rest) => .ok (.setLabel label, rest)
    | .error e => .error e
  | .stateLabel =>
    match Label.decode buf with
    | .ok (label, rest) => .ok (.stateLabel label, rest)
    | .error e => .error e
  | .acknowledgement => .ok (.acknowledgement, buf)
  | .get => .ok (.get, buf)
  | .setColor =>
    match buf with
    | _reserved :: rest =>
      match Hsbk.decode rest with
      | .ok (color, rest1) =>
        match rest1 with
        | d0 :: d1 :: d2 :: d3 :: rest2 =>
          .ok (.setColor color ((d0 + 256 * d1 + 65536 * d2 + 16777216 * d3) * 1000000),
               rest2)
        | _ => .error (.insufficientData rest1.length 4)
      | .error e => .error e
    | [] => .error (.insufficientData 0 1)
  | .state =>
    match Hsbk.decode buf with
    | .ok (color, rest) =>
      match rest with
      | _v0 :: _v1 :: p0 :: p1 :: rest1 =>
        match Label.decode rest1 with
        | .ok (label, rest2) =>
          match rest2 with
          | _w0 :: _w1 :: _w2 :: _w3 :: _w4 :: _w5 :: _w6 :: _w7 :: rest3 =>
            .ok (.state color (p0 + 256 * p1) label, rest3)
          | _ => .error (.insufficientData rest2.length 8)
        | .error e => .error e
      | _ => .error (.insufficientData rest.length 4)
    | .error e => .error e
  | .other value => .error (.unexpectedMessage (.other value))

/-- The message a wire round trip actually produces: labels are padded to
32 bytes, the service byte is reinterpreted (so `Unknown(1)` comes back as
`Udp`), and the duration is truncated to a whole number of milliseconds
modulo 2^32. -/
def normalize : Message → Message
  | .stateService service port => .stateService (Service.ofU8 (Service.toU8 service)) port
  | .setLabel label => .setLabel label.normalize
  | .stateLabel label => .stateLabel label.normalize
  | .setColor color durationNanos =>
    .setColor color (durationNanos / 1000000 % 4294967296 * 1000000)
  | .state color power label => .state color power label.normalize
  | m => m

end Message

/-- A full packet on the wire: header bytes followed by the payload bytes
(`Header::encode` then `Message::encode_payload`). -/
def encodePacketBytes (h : Header) (m : Message) : List Nat :=
  Header.encode h ++ Message.encodePayload m

/-- Decoding a full packet: `Header::decode` followed by
`Message::decode` on the remaining bytes. -/
def decodePacketBytes (buf : List Nat) : Except LifxError (Header × Message × List Nat) :=
  match Header.decode buf with
  | .ok (header, rest) =>
    match Message.decode header rest with
    | .ok (message, rest1) => .ok (header, message, rest1)
    | .error e => .error e
  | .error e => .error e

/-- `PacketOptions` from lifx-proto/src/lib.rs. -/
structure PacketOptions where
  source : Nat
  target : DeviceTarget
  sequence : Nat
  responseRequired : Bool
  acknowledgementRequired : Bool
  deriving DecidableEq, Repr

/-- `encode_packet` / `write_header` from lifx-proto/src/lib.rs: the
header size field is derived as `HEADER_SIZE + payload size`, the message
type comes from the message, and the payload follows the header. (The
`remaining_mut` guard never fires against a growable buffer.) -/
def encodePacket (options : PacketOptions) (m : Message) : List Nat :=
  Header.encode
    { size := Header.HEADER_SIZE + Message.payloadSize m
      source := options.source
      target := options.target
      responseRequired := options.responseRequired
      acknowledgementRequired := options.acknowledgementRequired
      sequence := options.sequence
      messageType := m.messageType } ++ Message.encodePayload m

/-!  lifx-client layer  -/

/-- `AnyMessage` from lifx-client/src/any_message.rs: the subset of
messages the client connection can receive. -/
inductive AnyMessage where
  | getService
  | stateService (service : Service) (port : Nat)
  | getLabel
  | stateLabel (label : Label)
  deriving DecidableEq, Repr

/-- `AnyMessage::decode`: dispatches on the header message type through
`lifx_proto::decode_packet` (which checks the payload size, then calls the
per-message `from_wire`); every other message type is rejected with
`LifxError::UnexpectedMessage`. -/
def AnyMessage.decode (buf : List Nat) (header : Header) : Except LifxError AnyMessage :=
  match header.messageType with
  | .getService => .ok .getService
  | .stateService =>
    match buf with
    | sv :: p0 :: p1 :: p2 :: p3 :: _ =>
      .ok (.stateService (Service.ofU8 sv) (p0 + 256 * p1 + 65536 * p2 + 16777216 * p3))
    | _ => .error (.insufficientData buf.length 5)
  | .getLabel => .ok .getLabel
  | .stateLabel =>
    match Label.decode buf with
    | .ok (label, _) => .ok (.stateLabel label)
    | .error e => .error e
  | t => .error (.unexpectedMessage t)

/-- Parsing one frame: `MessageHeader::parse` followed by
`AnyMessage::decode`, as in the body of `Codec::decode`.
The wire.rs `MessageHeader` is not present under src/; per the spec
(section 6 packet layout) it has exactly the layout of header.rs, so its
`parse` is modelled by `Header.decode`. -/
def parseFrame (data : List Nat) : Except LifxError (Header × AnyMessage) :=
  match Header.decode data with
  | .ok (header, rest) =>
    match AnyMessage.decode rest header with
    | .ok message => .ok (header, message)
    | .error e => .error e
  | .error e => .error e

/-- `MAX_PACKET_SIZE` from lifx-client/src/codec.rs. -/
def MAX_PACKET_SIZE : Nat := 4 * 1024

/-- `Codec::decode` from lifx-client/src/codec.rs, over a byte buffer.
Returns the optional decoded item together with the remaining buffer
(capacity reservation is not observable in this model). -/
def Codec.decode (src : List Nat) :
    Except LifxError (Option (Header × AnyMessage) × List Nat) :=
  if src.length < Header.HEADER_SIZE then
    .ok (none, src)
  else if src[0]! + 256 * src[1]! > MAX_PACKET_SIZE then
    .error (.packetTooLarge (src[0]! + 256 * src[1]!))
  else if src.length < src[0]! + 256 * src[1]! then
    .ok (none, src)
  else
    match parseFrame (src.take (src[0]! + 256 * src[1]!)) with
    | .ok item => .ok (some item, src.drop (src[0]! + 256 * src[1]!))
    | .error e => .error e

/-- An IP address, by its octets. -/
structure IpAddr where
  octets : List Nat
  deriving DecidableEq, Repr

/-- `std::net::SocketAddr`. -/
structure SocketAddr where
  ip : IpAddr
  port : Nat
  deriving DecidableEq, Repr

/-- `DeviceAddress` from lifx-client/src/lib.rs. -/
structure DeviceAddress where
  serviceAddress : SocketAddr
  target : DeviceTarget
  deriving DecidableEq, Repr

/-- `Response` from connection.rs: which kind of one-shot sink a request
carries. The channel identities are irrelevant to the claims, so sinks
are modelled as tags and deliveries as explicit effects. -/
inductive Response where
  | acknowledgement
  | reply
  deriving DecidableEq, Repr

/-- `InboundMessage` from connection.rs. -/
structure InboundMessage where
  addr : SocketAddr
  header : Header
  message : AnyMessage
  deriving DecidableEq, Repr

/-- `Request` from connection.rs. -/
structure Request where
  address : DeviceAddress
  message : AnyMessage
  response : Option Response
  deriving DecidableEq, Repr

/-- Observable actions of the connection engine. `ackTodo` marks the
acknowledgement branch, which is `todo!()` (a panic) in the source. -/
inductive Effect where
  | reply (sequence : Nat) (message : InboundMessage)
  | ackTodo (sequence : Nat)
  | discovered (address : DeviceAddress)
  | transportReply (sequence : Nat) (message : AnyMessage)
  deriving DecidableEq, Repr

/-- The mutable state of `Connection` (connection.rs). The
`pending_responses` table is a `HashMap<u8, Response>`, modelled as a
function from the 256 possible keys. -/
structure ConnState where
  source : Nat
  sequenceNumber : Nat
  pending : Fin 256 → Option Response
  pendingRequest : Option Request

/-- `Connection::new`: empty pending table, sequence number 0, no
deferred request. -/
def ConnState.init (source : Nat) : ConnState :=
  { source := source
    sequenceNumber := 0
    pending := fun _ => none
    pendingRequest := none }

namespace Connection

/-- The `u8` key for a sequence number (`header.sequence` is a u8 in the
source; reduction mod 256 realizes that type). -/
def seqKey (sequence : Nat) : Fin 256 := ⟨sequence % 256, Nat.mod_lt _ (by decide)⟩

/-- The scan inside `Connection::next_sequence`: the first sequence in
`sequence_number..=255` whose slot is free. Fuel-structured for
computability; it is called with fuel 256, which covers the whole range. -/
def findFreeSeq (pending : Fin 256 → Option Response) : Nat → Nat → Option Nat
  | 0, _ => none
  | fuel + 1, i =>
    if h : i < 256 then
      if (pending ⟨i, h⟩).isNone then some i
      else findFreeSeq pending fuel (i + 1)
    else none

/-- `Connection::next_sequence`. Without a response, returns the counter
and post-increments (wrapping). With a response, scans
`sequence_number..=255` for a free slot; on success advances the counter
past it, on failure leaves the state unchanged and reports exhaustion. -/
def nextSequence (hasResponse : Bool) (s : ConnState) : Option Nat × ConnState :=
  if hasResponse then
    match findFreeSeq s.pending 256 s.sequenceNumber with
    | some seq => (some seq, { s with sequenceNumber := (seq + 1) % 256 })
    | none => (none, s)
  else
    (some s.sequenceNumber, { s with sequenceNumber := (s.sequenceNumber + 1) % 256 })

/-- What `poll_outgoing` does with one request once the socket is
writable. -/
inductive SendOutcome where
  | sent (options : PacketOptions) (message : AnyMessage) (dest : SocketAddr)
  | deferred

/-- One iteration of `Connection::poll_outgoing` for a request taken from
the queue: allocate a sequence; on success store the response sink (if
any) in the pending table and send the packet with flags derived from the
sink kind; on exhaustion stash the request in `pending_request`. -/
def processRequest (s : ConnState) (req : Request) : ConnState × SendOutcome :=
  match nextSequence req.response.isSome s with
  | (some seq, s1) =>
    match req.response with
    | some r =>
      let flags := match r with
        | .acknowledgement => (false, true)
        | .reply => (true, false)
      ({ s1 with pending := fun j => if j = seqKey seq then some r else s1.pending j },
       .sent { source := s.source
               target := req.address.target
               sequence := seq
               responseRequired := flags.1
               acknowledgementRequired := flags.2 }
         req.message req.address.serviceAddress)
    | none =>
      (s1,
       .sent { source := s.source
               target := req.address.target
               sequence := seq
               responseRequired := false
               acknowledgementRequired := false }
         req.message req.address.serviceAddress)
  | (none, s1) =>
    ({ s1 with pendingRequest := some req }, .deferred)

/-- `Connection::handle_message`: drop packets from other sources; route
a pending sequence to its sink (removing the table entry); otherwise
publish a `StateService`/Udp announcement as a discovery event (the
socket port is `service.port as u16`, a truncating cast); discard
everything else. -/
def handleMessage (s : ConnState) (msg : InboundMessage) : ConnState × List Effect :=
  if msg.header.source ≠ s.source then (s, [])
  else
    let key := seqKey msg.header.sequence
    match s.pending key with
    | some r =>
      let s1 := { s with pending := fun j => if j = key then none else s.pending j }
      match r with
      | .reply => (s1, [.reply msg.header.sequence msg])
      | .acknowledgement => (s1, [.ackTodo msg.header.sequence])
    | none =>
      match msg.message with
      | .stateService service port =>
        let address : DeviceAddress :=
          { serviceAddress := { ip := msg.addr.ip, port := port % 65536 }
            target := msg.header.target }
        match service with
        | .udp => (s, [.discovered address])
        | .unknown _ => (s, [])
      | _ => (s, [])

/-- Number of entries in the pending-response table. -/
def pendingCount (s : ConnState) : Nat :=
  (Finset.univ.filter (fun j : Fin 256 => (s.pending j).isSome)).card

/-- Reachable engine states: the initial state, and closure under the
outbound step (`poll_outgoing` on one request) and the inbound step
(`handle_message`). -/
inductive Reachable (source : Nat) : ConnState → Prop where
  | init : Reachable source (ConnState.init source)
  | outgoing {s : ConnState} (req : Request) :
      Reachable source s → Reachable source (processRequest s req).1
  | inbound {s : ConnState} (msg : InboundMessage) :
      Reachable source s → Reachable source (handleMessage s msg).1

end Connection

/-- `PendingResponse` from transport.rs. -/
inductive PendingResponse where
  | ackExpected
  | responseExpected
  deriving DecidableEq, Repr

/-- The state of `Transport` (transport.rs) relevant to message
processing. -/
structure TransportState where
  source : Nat
  sequenceNumber : Nat
  pending : Fin 256 → Option PendingResponse

/-- `Transport::process_message`: drop packets from other sources;
publish `StateService`/Udp as discovery; otherwise remove the pending
entry for the sequence and deliver to a `ResponseExpected` sink if that
is what was stored. -/
def Transport.processMessage (ts : TransportState) (addr : SocketAddr)
    (header : Header) (message : AnyMessage) : TransportState × List Effect :=
  if header.source ≠ ts.source then (ts, [])
  else
    match message with
    | .stateService service port =>
      let address : DeviceAddress :=
        { serviceAddress := { ip := addr.ip, port := port % 65536 }
          target := header.target }
      match service with
      | .udp => (ts, [.discovered address])
      | .unknown _ => (ts, [])
    | _ =>
      let key := Connection.seqKey header.sequence
      let ts1 := { ts with pending := fun j => if j = key then none else ts.pending j }
      match ts.pending key with
      | some .responseExpected => (ts1, [.transportReply header.sequence message])
      | _ => (ts1, [])

/-!  Concrete instances used by counterexamples and witnesses  -/

/-- The label "Kitchen" (7 ASCII bytes). -/
def kitchenLabel : Label := ⟨[75, 105, 116, 99, 104, 101, 110]⟩

/-- A label of exactly 32 bytes (32 times ASCII letter A). -/
def full32Label : Label := ⟨List.replicate 32 65⟩

/-- A valid header for a SetLabel packet carrying `c1Msg`. -/
def c1Header : Header :=
  { size := 68
    source := 1234
    target := .all
    responseRequired := false
    acknowledgementRequired := false
    sequence := 7
    messageType := .setLabel }

/-- A SetLabel message whose label is the single ASCII byte A. -/
def c1Msg : Message := .setLabel ⟨[65]⟩

/-- A valid broadcast GetService header. -/
def c1WitnessHeader : Header :=
  { size := 36
    source := 1234
    target := .all
    responseRequired := false
    acknowledgementRequired := false
    sequence := 1
    messageType := .getService }

/-- An engine state with source 1234 and an empty pending table. -/
def c5State : ConnState :=
  { source := 1234
    sequenceNumber := 0
    pending := fun _ => none
    pendingRequest := none }

/-- An inbound StateService/Udp packet whose payload port field is 70000,
which exceeds the u16 range. -/
def c5Msg : InboundMessage :=
  { addr := { ip := ⟨[192, 0, 2, 5]⟩, port := 56700 }
    header := { size := 41
                source := 1234
                target := .targeted ⟨170, 187, 204, 221, 238, 255⟩
                responseRequired := false
                acknowledgementRequired := false
                sequence := 9
                messageType := .stateService }
    message := .stateService .udp 70000 }

/-- An engine state whose pending-response table is completely full. -/
def fullConnState : ConnState :=
  { source := 9
    sequenceNumber := 0
    pending := fun _ => some .reply
    pendingRequest := none }

/-- A request that expects a reply. -/
def replyRequest : Request :=
  { address := { serviceAddress := { ip := ⟨[10, 0, 0, 2]⟩, port := 56700 }
                 target := .all }
    message := .getService
    response := some .reply }

/-- An inbound StateService/Udp packet with an in-range port, matching
the spec discovery scenario. -/
def discoveryMsg : InboundMessage :=
  { addr := { ip := ⟨[192, 0, 2, 5]⟩, port := 56700 }
    header := { size := 41
                source := 1234
                target := .targeted ⟨170, 187, 204, 221, 238, 255⟩
                responseRequired := false
                acknowledgementRequired := false
                sequence := 9
                messageType := .stateService }
    message := .stateService .udp 56700 }

/-- An engine state with source 5 and an empty pending table. -/
def c7State : ConnState :=
  { source := 5
    sequenceNumber := 0
    pending := fun _ => none
    pendingRequest := none }

/-- A transport state with source 5 and an empty pending table. -/
def c7Transport : TransportState :=
  { source := 5
    sequenceNumber := 1
    pending := fun _ => none }

/-- An inbound packet whose header source is 6. -/
def c7Msg : InboundMessage :=
  { addr := { ip := ⟨[192, 0, 2, 5]⟩, port := 56700 }
    header := { size := 36
                source := 6
                target := .all
                responseRequired := false
                acknowledgementRequired := false
                sequence := 0
                messageType := .getService }
    message := .getService }

/-- Packet options for a broadcast discovery request from source 1234. -/
def discoveryOptions : PacketOptions :=
  { source := 1234
    target := .all
    sequence := 1
    responseRequired := false
    acknowledgementRequired := false }

/-- Packet options targeting one MAC from source 1234. -/
def targetedOptions : PacketOptions :=
  { source := 1234
    target := .targeted ⟨170, 187, 204, 221, 238, 255⟩
    sequence := 2
    responseRequired := true
    acknowledgementRequired := false }

/-- A 36-byte buffer whose declared frame size is 8192 (bytes 0x00 0x20
little-endian), exceeding the 4096 limit. -/
def oversizeBuf : List Nat := 0 :: 32 :: List.replicate 34 0

/-- A header carrying the Acknowledgement message type (code 45). -/
def ackHeader : Header :=
  { size := 36
    source := 1
    target := .all
    responseRequired := false
    acknowledgementRequired := false
    sequence := 0
    messageType := MessageType.ofU16 45 }

/-!  Supporting lemmas  -/

set_option maxHeartbeats 2000000 in
/-- If the automaton accepts `xs` from `stack` and `ys` from the start
state, it accepts `xs ++ ys` from `stack`. -/
theorem utf8Run_append {ys : List Nat} (hy : utf8Run [] ys = true) :
    ∀ (xs : List Nat) (stack : List (Nat × Nat)),
      utf8Run stack xs = true → utf8Run stack (xs ++ ys) = true := by
  intro xs
  induction xs with
  | nil =>
    intro stack hx
    cases stack with
    | nil => simpa using hy
    | cons p stack => simp [utf8Run] at hx
  | cons b rest ih =>
    intro stack hx
    cases stack with
    | nil =>
      rw [List.cons_append]
      simp only [utf8Run] at hx ⊢
      split_ifs at hx ⊢ <;> exact ih _ hx
    | cons p stack =>
      obtain ⟨lo, hi⟩ := p
      rw [List.cons_append]
      simp only [utf8Run] at hx ⊢
      split_ifs at hx ⊢
      exact ih _ hx

/-- UTF-8 validity is preserved by appending a valid suffix. -/
theorem validUtf8_append {xs ys : List Nat} (hx : validUtf8 xs = true)
    (hy : validUtf8 ys = true) : validUtf8 (xs ++ ys) = true :=
  utf8Run_append hy xs [] hx

/-- A run of NUL bytes is valid UTF-8. -/
theorem validUtf8_replicate_zero (k : Nat) :
    validUtf8 (List.replicate k 0) = true := by
  induction k with
  | zero => rfl
  | succ k ih =>
    rw [List.replicate_succ]
    simpa [validUtf8, utf8Run] using ih

/-- An encoded label is exactly 32 bytes. -/
theorem Label.encode_length (l : Label) (h : l.bytes.length ≤ 32) :
    (Label.encode l).length = 32 := by
  simp [Label.encode, Label.MAX_LENGTH]
  omega

/-- The NUL-padded image of a well-formed label is valid UTF-8. -/
theorem Label.encode_validUtf8 (l : Label) (hv : validUtf8 l.bytes = true) :
    validUtf8 (Label.encode l) = true :=
  validUtf8_append hv (validUtf8_replicate_zero _)

/-- Decoding an encoded label yields the NUL-padded normalization, with
the remainder of the buffer untouched. -/
theorem label_decode_encode (l : Label) (hwf : Label.wf l) (extra : List Nat) :
    Label.decode (Label.encode l ++ extra) = .ok (Label.normalize l, extra) := by
  obtain ⟨hv, hlen⟩ := hwf
  have h32 : (Label.encode l).length = 32 := Label.encode_length l hlen
  unfold Label.decode
  rw [if_neg (by simp [Label.MAX_LENGTH]; omega)]
  have htake : (Label.encode l ++ extra).take Label.MAX_LENGTH = Label.encode l :=
    List.take_left' h32
  have hdrop : (Label.encode l ++ extra).drop Label.MAX_LENGTH = extra :=
    List.drop_left' h32
  rw [htake, hdrop, if_pos (Label.encode_validUtf8 l hv)]
  rfl

/-- A sequence number found by the free-slot scan is free. -/
theorem findFreeSeq_free :
    ∀ {fuel i seq : Nat} {p : Fin 256 → Option Response},
      Connection.findFreeSeq p fuel i = some seq →
      ∃ hlt : seq < 256, p ⟨seq, hlt⟩ = none := by
  intro fuel
  induction fuel with
  | zero =>
    intro i seq p h
    simp [Connection.findFreeSeq] at h
  | succ fuel ih =>
    intro i seq p h
    rw [Connection.findFreeSeq] at h
    split at h
    · split at h
      · rename_i hlt hfree
        injection h with h1
        subst h1
        exact ⟨hlt, Option.isNone_iff_eq_none.mp hfree⟩
      · exact ih h
    · exact absurd h (by simp)

/-- A successful allocation with a response returns a free slot. -/
theorem nextSequence_some_free {s : ConnState} {seq : Nat}
    (h : (Connection.nextSequence true s).1 = some seq) :
    ∃ hlt : seq < 256, s.pending ⟨seq, hlt⟩ = none := by
  unfold Connection.nextSequence at h
  simp only [if_true] at h
  cases hf : Connection.findFreeSeq s.pending 256 s.sequenceNumber with
  | some a =>
    rw [hf] at h
    simp at h
    subst h
    exact findFreeSeq_free hf
  | none =>
    rw [hf] at h
    simp at h

/-- A failed allocation leaves the state untouched. -/
theorem nextSequence_none {b : Bool} {s : ConnState}
    (h : (Connection.nextSequence b s).1 = none) :
    Connection.nextSequence b s = (none, s) := by
  unfold Connection.nextSequence at h ⊢
  cases b with
  | false => simp at h
  | true =>
    cases hf : Connection.findFreeSeq s.pending 256 s.sequenceNumber with
    | some a => rw [hf] at h; simp at h
    | none => simp [hf]

/-- The pending-response table never exceeds the 256 possible u8 keys. -/
theorem pendingCount_le (s : ConnState) : Connection.pendingCount s ≤ 256 :=
  le_trans (Finset.card_filter_le _ _)
    (le_of_eq (by rw [Finset.card_univ, Fintype.card_fin]))

/-- An encoded payload occupies exactly `payload_size` bytes. -/
theorem encodePayload_length (m : Message) (hm : Message.wf m) :
    (Message.encodePayload m).length = Message.payloadSize m := by
  cases m with
  | setLabel l =>
    have := hm.2
    simp [Message.encodePayload, Message.payloadSize, Label.encode, Label.MAX_LENGTH] at *
    omega
  | stateLabel l =>
    have := hm.2
    simp [Message.encodePayload, Message.payloadSize, Label.encode, Label.MAX_LENGTH] at *
    omega
  | state c p l =>
    have := hm.2.2.2
    simp [Message.encodePayload, Message.payloadSize, Label.encode, Label.MAX_LENGTH,
      Hsbk.encode, Hsbk.SIZE, u16le] at *
    omega
  | _ =>
    simp [Message.encodePayload, Message.payloadSize, Label.MAX_LENGTH, Hsbk.encode,
      Hsbk.SIZE, u16le, u32le, Service.toU8]

/-- Every payload of the catalog is at most 52 bytes. -/
theorem payloadSize_le (m : Message) : Message.payloadSize m ≤ 52 := by
  cases m <;> simp [Message.payloadSize, Hsbk.SIZE, Label.MAX_LENGTH]

/-- An encoded header is exactly 36 bytes. -/
theorem header_encode_length (h : Header) : (Header.encode h).length = 36 := by
  cases htarget : h.target <;>
    simp [Header.encode, htarget, u16le, u32le, MacAddr6.toBytes]

/-- Decoding the byte image of four u16 fields: the value parses exactly
when the temperature field is within the Kelvin range. -/
theorem hsbk_decode_bytes (hue sat bri temp : Nat) (rest : List Nat)
    (hh : hue < 65536) (hs : sat < 65536) (hb : bri < 65536) (ht : temp < 65536) :
    Hsbk.decode (u16le hue ++ u16le sat ++ u16le bri ++ u16le temp ++ rest) =
      if 2500 ≤ temp ∧ temp ≤ 9000 then
        .ok ({ hue := hue, saturation := sat, brightness := bri, temperature := temp },
             rest)
      else .error (.invalidPayload temp) := by
  have e1 : hue % 256 + 256 * (hue / 256 % 256) = hue := by omega
  have e2 : sat % 256 + 256 * (sat / 256 % 256) = sat := by omega
  have e3 : bri % 256 + 256 * (bri / 256 % 256) = bri := by omega
  have e4 : temp % 256 + 256 * (temp / 256 % 256) = temp := by omega
  simp only [u16le, List.cons_append, List.nil_append, Hsbk.decode, e1, e2, e3, e4]

/-- A well-formed HSBK value round trips through the wire format, leaving
the rest of the buffer untouched. -/
theorem hsbk_roundtrip (h : Hsbk) (rest : List Nat) (hwf : Hsbk.wf h) :
    Hsbk.decode (Hsbk.encode h ++ rest) = .ok (h, rest) := by
  obtain ⟨hh, hs, hb, ht1, ht2⟩ := hwf
  have hd := hsbk_decode_bytes h.hue h.saturation h.brightness h.temperature rest
    hh hs hb (by omega)
  rw [if_pos ⟨ht1, ht2⟩] at hd
  have heq : Hsbk.encode h ++ rest =
      u16le h.hue ++ u16le h.saturation ++ u16le h.brightness ++ u16le h.temperature
        ++ rest := by
    simp [Hsbk.encode]
  rw [heq, hd]

/-- Decoding an encoded header recovers it exactly, leaving the payload
bytes untouched. -/
theorem header_decode_encode (h : Header) (extra : List Nat)
    (hsize : h.size < 65536) (hsrc : h.source < 4294967296)
    (ht : MessageType.ofU16 (MessageType.toU16 h.messageType) = h.messageType)
    (htlt : MessageType.toU16 h.messageType < 65536) :
    Header.decode (Header.encode h ++ extra) = .ok (h, extra) := by
  have e1 : h.size % 256 + 256 * (h.size / 256 % 256) = h.size := by omega
  have e2 : h.source % 256 + 256 * (h.source / 256 % 256)
      + 65536 * (h.source / 65536 % 256)
      + 16777216 * (h.source / 16777216 % 256) = h.source := by omega
  have e3 : MessageType.toU16 h.messageType % 256
      + 256 * (MessageType.toU16 h.messageType / 256 % 256)
      = MessageType.toU16 h.messageType := by omega
  obtain ⟨size, source, target, rr, ar, seq, mt⟩ := h
  simp only at e1 e2 e3 ht htlt hsize hsrc
  cases target with
  | all =>
    have h1 : Header.encode ⟨size, source, .all, rr, ar, seq, mt⟩ ++ extra
        = size % 256 :: size / 256 % 256 :: 0 :: 52 ::
          source % 256 :: source / 256 % 256 :: source / 65536 % 256 ::
          source / 16777216 % 256 ::
          0 :: 0 :: 0 :: 0 :: 0 :: 0 :: 0 :: 0 ::
          0 :: 0 :: 0 :: 0 :: 0 :: 0 ::
          ((if rr then 1 else 0) + (if ar then 2 else 0)) :: seq ::
          0 :: 0 :: 0 :: 0 :: 0 :: 0 :: 0 :: 0 ::
          MessageType.toU16 mt % 256 :: MessageType.toU16 mt / 256 % 256 :: 0 :: 0 ::
          extra := by
      have hb : Header.encode ⟨size, source, .all, rr, ar, seq, mt⟩
          = u16le size ++ u16le 13312 ++ u32le source ++ [0, 0, 0, 0, 0, 0, 0, 0]
            ++ [0, 0, 0, 0, 0, 0]
            ++ [(if rr then 1 else 0) + (if ar then 2 else 0), seq]
            ++ [0, 0, 0, 0, 0, 0, 0, 0]
            ++ u16le (MessageType.toU16 mt) ++ [0, 0] := by rfl
      rw [hb]
      simp only [u16le, u32le, List.cons_append, List.nil_append, List.append_assoc]
    rw [h1]
    simp only [Header.decode]
    norm_num [Header.PROTOCOL_NUMBER]
    rw [e1, e2, e3, ht]
    cases rr <;> cases ar <;> norm_num
  | targeted mac =>
    obtain ⟨b0, b1, b2, b3, b4, b5⟩ := mac
    have h1 : Header.encode ⟨size, source, .targeted ⟨b0, b1, b2, b3, b4, b5⟩,
          rr, ar, seq, mt⟩ ++ extra
        = size % 256 :: size / 256 % 256 :: 0 :: 20 ::
          source % 256 :: source / 256 % 256 :: source / 65536 % 256 ::
          source / 16777216 % 256 ::
          b0 :: b1 :: b2 :: b3 :: b4 :: b5 :: 0 :: 0 ::
          0 :: 0 :: 0 :: 0 :: 0 :: 0 ::
          ((if rr then 1 else 0) + (if ar then 2 else 0)) :: seq ::
          0 :: 0 :: 0 :: 0 :: 0 :: 0 :: 0 :: 0 ::
          MessageType.toU16 mt % 256 :: MessageType.toU16 mt / 256 % 256 :: 0 :: 0 ::
          extra := by
      have hb : Header.encode ⟨size, source, .targeted ⟨b0, b1, b2, b3, b4, b5⟩,
            rr, ar, seq, mt⟩
          = u16le size ++ u16le 5120 ++ u32le source
            ++ (MacAddr6.toBytes ⟨b0, b1, b2, b3, b4, b5⟩ ++ [0, 0])
            ++ [0, 0, 0, 0, 0, 0]
            ++ [(if rr then 1 else 0) + (if ar then 2 else 0), seq]
            ++ [0, 0, 0, 0, 0, 0, 0, 0]
            ++ u16le (MessageType.toU16 mt) ++ [0, 0] := by rfl
      rw [hb]
      simp only [u16le, u32le, MacAddr6.toBytes, List.cons_append, List.nil_append,
        List.append_assoc]
    rw [h1]
    simp only [Header.decode]
    norm_num [Header.PROTOCOL_NUMBER]
    rw [e1, e2, e3, ht]
    cases rr <;> cases ar <;> norm_num

/-- Decoding an encoded payload under a matching header yields the
normalized message and consumes the payload exactly. -/
theorem message_decode_encode (m : Message) (hm : Message.wf m) (header : Header)
    (htype : header.messageType = m.messageType) :
    Message.decode header (Message.encodePayload m) = .ok (Message.normalize m, []) := by
  cases m with
  | getService =>
    simp [Message.decode, htype, Message.messageType, Message.encodePayload,
      Message.normalize]
  | getLabel =>
    simp [Message.decode, htype, Message.messageType, Message.encodePayload,
      Message.normalize]
  | acknowledgement =>
    simp [Message.decode, htype, Message.messageType, Message.encodePayload,
      Message.normalize]
  | get =>
    simp [Message.decode, htype, Message.messageType, Message.encodePayload,
      Message.normalize]
  | stateService svc port =>
    have e : port % 256 + 256 * (port / 256 % 256) + 65536 * (port / 65536 % 256)
        + 16777216 * (port / 16777216 % 256) = port := by
      have := hm.2
      omega
    simp [Message.decode, htype, Message.messageType, Message.encodePayload,
      Message.normalize, u32le, e]
  | setLabel l =>
    have hd := label_decode_encode l hm []
    rw [List.append_nil] at hd
    simp [Message.decode, htype, Message.messageType, Message.encodePayload,
      Message.normalize, hd]
  | stateLabel l =>
    have hd := label_decode_encode l hm []
    rw [List.append_nil] at hd
    simp [Message.decode, htype, Message.messageType, Message.encodePayload,
      Message.normalize, hd]
  | setColor c d =>
    have hc := hsbk_roundtrip c (u32le (d / 1000000)) hm
    have e : d / 1000000 % 256 + 256 * (d / 1000000 / 256 % 256)
        + 65536 * (d / 1000000 / 65536 % 256)
        + 16777216 * (d / 1000000 / 16777216 % 256)
        = d / 1000000 % 4294967296 := by omega
    simp only [Message.encodePayload, Message.decode, htype, Message.messageType,
      List.cons_append, List.append_assoc]
    rw [hc]
    simp [Message.normalize, u32le, e]
  | state c p l =>
    obtain ⟨hcwf, hplt, hlwf⟩ := hm
    have hc := hsbk_roundtrip c
      (0 :: 0 :: (u16le p ++ (Label.encode l ++ [0, 0, 0, 0, 0, 0, 0, 0]))) hcwf
    have hl := label_decode_encode l hlwf [0, 0, 0, 0, 0, 0, 0, 0]
    have e : p % 256 + 256 * (p / 256 % 256) = p := by omega
    simp only [Message.encodePayload, Message.decode, htype, Message.messageType,
      List.cons_append, List.append_assoc, List.nil_append]
    rw [hc]
    simp [u16le, hl, Message.normalize, e]

/-!  Claims  -/

/-- C2, counterexample: the label "Kitchen" is well formed and at most 32
bytes, yet decoding its encoding yields "Kitchen" followed by 25 NUL
bytes, not "Kitchen": `Label::decode` does not strip trailing NULs, so
the round trip fails for a label of byte length below 32. -/
theorem label_no_strip_counterexample :
    Label.wf kitchenLabel ∧
    Label.decode (Label.encode kitchenLabel) =
      .ok (⟨kitchenLabel.bytes ++ List.replicate 25 0⟩, []) ∧
    Label.decode (Label.encode kitchenLabel) ≠ .ok (kitchenLabel, []) := by
  refine ⟨⟨by decide, by decide⟩, by decide, by decide⟩

/-- C2, amended: label decoding does not strip trailing NUL bytes.
Decoding the encoding of a well-formed label yields the label padded with
NULs to 32 bytes, and the round trip is the identity precisely when the
UTF-8 byte length is exactly 32. -/
theorem label_roundtrip_iff (l : Label) (hwf : Label.wf l) :
    Label.decode (Label.encode l) = .ok (Label.normalize l, []) ∧
    (Label.decode (Label.encode l) = .ok (l, []) ↔ l.bytes.length = 32) := by
  have h1 := label_decode_encode l hwf []
  rw [List.append_nil] at h1
  refine ⟨h1, ?_, ?_⟩
  · intro h2
    rw [h1] at h2
    have h3 : Label.normalize l = l := by
      simpa using h2
    have h4 := congrArg (fun x => x.bytes.length) h3
    have h5 := hwf.2
    simp [Label.normalize, Label.MAX_LENGTH] at h4 h5 ⊢
    omega
  · intro h2
    rw [h1]
    simp [Label.normalize, h2, Label.MAX_LENGTH]

/-- C2 witness: a 32-byte label round trips unchanged. -/
theorem label_roundtrip_iff_witness :
    Label.decode (Label.encode full32Label) = .ok (Label.normalize full32Label, []) ∧
    (Label.decode (Label.encode full32Label) = .ok (full32Label, []) ↔
      full32Label.bytes.length = 32) :=
  label_roundtrip_iff full32Label ⟨by decide, by decide⟩

/-- C7: an inbound packet whose header source differs from the engine
source identifier is dropped with no observable effect: no sink is
signalled, no discovery event is published, and the pending-response
table is unchanged — in both `Connection::handle_message` and
`Transport::process_message`. -/
theorem source_mismatch_dropped (s : ConnState) (msg : InboundMessage)
    (ts : TransportState) (addr : SocketAddr) (header : Header) (message : AnyMessage)
    (h1 : msg.header.source ≠ s.source) (h2 : header.source ≠ ts.source) :
    Connection.handleMessage s msg = (s, []) ∧
    Transport.processMessage ts addr header message = (ts, []) := by
  constructor
  · simp [Connection.handleMessage, h1]
  · simp [Transport.processMessage, h2]

/-- C7 witness: engine source 5, inbound source 6. -/
theorem source_mismatch_dropped_witness :
    Connection.handleMessage c7State c7Msg = (c7State, []) ∧
    Transport.processMessage c7Transport c7Msg.addr c7Msg.header c7Msg.message
      = (c7Transport, []) :=
  source_mismatch_dropped c7State c7Msg c7Transport c7Msg.addr c7Msg.header c7Msg.message
    (by decide) (by decide)

/-- C5, amended: a source-matching inbound `StateService`/Udp packet with
no pending entry for its sequence publishes exactly one discovery event,
whose socket port is the payload port truncated to u16 (`port as u16` in
the source), that is, the port reduced modulo 65536. -/
theorem discovery_for_state_service (s : ConnState) (msg : InboundMessage) (port : Nat)
    (hsrc : msg.header.source = s.source)
    (hpend : s.pending (Connection.seqKey msg.header.sequence) = none)
    (hmsg : msg.message = .stateService .udp port) :
    Connection.handleMessage s msg =
      (s, [.discovered { serviceAddress := { ip := msg.addr.ip, port := port % 65536 }
                         target := msg.header.target }]) := by
  simp [Connection.handleMessage, hsrc, hpend, hmsg]

/-- C5, counterexample: a payload port of 70000 (a legitimate u32) is
published truncated to 4464, not 70000, so the published socket port does
not always equal the payload port. -/
theorem discovery_port_counterexample :
    c5Msg.header.source = c5State.source ∧
    c5State.pending (Connection.seqKey c5Msg.header.sequence) = none ∧
    c5Msg.message = .stateService .udp 70000 ∧
    (Connection.handleMessage c5State c5Msg).2 ≠
      [.discovered { serviceAddress := { ip := c5Msg.addr.ip, port := 70000 }
                     target := c5Msg.header.target }] ∧
    (Connection.handleMessage c5State c5Msg).2 =
      [.discovered { serviceAddress := { ip := c5Msg.addr.ip, port := 4464 }
                     target := c5Msg.header.target }] := by
  refine ⟨by decide, by decide, by decide, by decide, by decide⟩

/-- C5 witness: the spec discovery scenario, with an in-range port. -/
theorem discovery_for_state_service_witness :
    Connection.handleMessage c5State discoveryMsg =
      (c5State,
        [.discovered { serviceAddress := { ip := discoveryMsg.addr.ip
                                           port := 56700 % 65536 }
                       target := discoveryMsg.header.target }]) :=
  discovery_for_state_service c5State discoveryMsg 56700 (by decide) (by decide) (by decide)

/-- C9: `AnyMessage::decode` rejects every message type other than
GetService, StateService, GetLabel and StateLabel with an
UnexpectedMessage error — in particular the catalog codes SetLabel (24),
Acknowledgement (45), Get (101), SetColor (102) and State (107), so the
connection engine cannot deliver those replies. -/
theorem anyMessage_decode_unexpected (buf : List Nat) (header : Header)
    (h1 : header.messageType ≠ .getService)
    (h2 : header.messageType ≠ .stateService)
    (h3 : header.messageType ≠ .getLabel)
    (h4 : header.messageType ≠ .stateLabel) :
    AnyMessage.decode buf header = .error (.unexpectedMessage header.messageType) := by
  cases hmt : header.messageType <;>
    first
      | exact (h1 hmt).elim
      | exact (h2 hmt).elim
      | exact (h3 hmt).elim
      | exact (h4 hmt).elim
      | simp [AnyMessage.decode, hmt]

/-- C9 witness: an Acknowledgement (code 45) header is rejected. -/
theorem anyMessage_decode_unexpected_witness :
    AnyMessage.decode [] ackHeader = .error (.unexpectedMessage ackHeader.messageType) :=
  anyMessage_decode_unexpected [] ackHeader (by decide) (by decide) (by decide) (by decide)

/-- C10: converting any u16 value to a `MessageType` and back is the
identity; each of the nine named codes maps to its own variant, and every
other value is preserved through the `Other` catch-all. -/
theorem messageType_u16_roundtrip :
    (∀ v : Nat, v < 65536 → MessageType.toU16 (MessageType.ofU16 v) = v) ∧
    MessageType.ofU16 2 = .getService ∧ MessageType.ofU16 3 = .stateService ∧
    MessageType.ofU16 23 = .getLabel ∧ MessageType.ofU16 24 = .setLabel ∧
    MessageType.ofU16 25 = .stateLabel ∧ MessageType.ofU16 45 = .acknowledgement ∧
    MessageType.ofU16 101 = .get ∧ MessageType.ofU16 102 = .setColor ∧
    MessageType.ofU16 107 = .state ∧
    (∀ v : Nat, v ≠ 2 → v ≠ 3 → v ≠ 23 → v ≠ 24 → v ≠ 25 → v ≠ 45 → v ≠ 101 →
      v ≠ 102 → v ≠ 107 → MessageType.ofU16 v = .other v) := by
  refine ⟨?_, by decide, by decide, by decide, by decide, by decide, by decide,
    by decide, by decide, by decide, ?_⟩
  · intro v _
    unfold MessageType.ofU16
    split_ifs <;> simp_all [MessageType.toU16]
  · intro v h1 h2 h3 h4 h5 h6 h7 h8 h9
    unfold MessageType.ofU16
    split_ifs <;> simp_all

/-- C10 witness: code 2 round trips through GetService, code 5 through
the catch-all. -/
theorem messageType_u16_roundtrip_witness :
    MessageType.toU16 (MessageType.ofU16 2) = 2 ∧ MessageType.ofU16 5 = .other 5 := by
  obtain ⟨ha, _, _, _, _, _, _, _, _, _, hb⟩ := messageType_u16_roundtrip
  exact ⟨ha 2 (by decide),
    hb 5 (by decide) (by decide) (by decide) (by decide) (by decide) (by decide)
      (by decide) (by decide) (by decide)⟩

/-- C8: decoding the byte image of an HSBK value fails with a protocol
error precisely when the temperature field lies outside the inclusive
range 2500..9000 Kelvin, and every well-formed `Hsbk` (whose Kelvin is in
range by construction) round trips through encode/decode. -/
theorem hsbk_decode_spec :
    (∀ hue sat bri temp rest,
      hue < 65536 → sat < 65536 → bri < 65536 → temp < 65536 →
      Hsbk.decode (u16le hue ++ u16le sat ++ u16le bri ++ u16le temp ++ rest) =
        if 2500 ≤ temp ∧ temp ≤ 9000 then
          .ok ({ hue := hue, saturation := sat, brightness := bri, temperature := temp },
               rest)
        else .error (.invalidPayload temp)) ∧
    (∀ h rest, Hsbk.wf h → Hsbk.decode (Hsbk.encode h ++ rest) = .ok (h, rest)) := by
  exact ⟨fun hue sat bri temp rest hh hs hb ht =>
    hsbk_decode_bytes hue sat bri temp rest hh hs hb ht,
    fun h rest hwf => hsbk_roundtrip h rest hwf⟩

/-- C8 witness: Kelvin 9001 is rejected, Kelvin 3500 round trips. -/
theorem hsbk_decode_spec_witness :
    Hsbk.decode (u16le 1 ++ u16le 2 ++ u16le 3 ++ u16le 9001 ++ []) =
      .error (.invalidPayload 9001) ∧
    Hsbk.decode (Hsbk.encode ⟨1, 2, 3, 3500⟩ ++ []) = .ok (⟨1, 2, 3, 3500⟩, []) := by
  constructor
  · have h := hsbk_decode_spec.1 1 2 3 9001 [] (by decide) (by decide) (by decide)
      (by decide)
    rw [if_neg (by decide)] at h
    exact h
  · exact hsbk_decode_spec.2 ⟨1, 2, 3, 3500⟩ []
      ⟨by decide, by decide, by decide, by decide, by decide⟩

/-- C1, counterexample: a valid packet (size field 36 plus payload size,
supported SetLabel message, matching message type) whose label is shorter
than 32 bytes does not decode back to itself: the label comes back
NUL-padded. -/
theorem packet_roundtrip_counterexample :
    Header.wf c1Header ∧ Message.wf c1Msg ∧
    c1Header.size = 36 + Message.payloadSize c1Msg ∧
    c1Header.messageType = Message.messageType c1Msg ∧
    decodePacketBytes (encodePacketBytes c1Header c1Msg) ≠
      .ok (c1Header, c1Msg, []) := by
  exact ⟨⟨by decide, by decide, by decide⟩, ⟨by decide, by decide⟩, by decide,
    by decide, by decide⟩

/-- C1, amended: for every valid packet (well-formed header and message,
size field 36 plus payload size, message type matching the message),
decoding the encoded bytes succeeds and yields the packet with its
message normalized: labels are NUL-padded to 32 bytes, a StateService
service byte of 1 decodes as Udp even if built as Unknown(1), and a
SetColor duration is truncated to whole milliseconds modulo 2^32.
Reserved bytes are written as zero and ignored, as the claim allows. -/
theorem packet_roundtrip_normalize (h : Header) (m : Message)
    (hwf : Header.wf h) (hm : Message.wf m)
    (hsize : h.size = 36 + Message.payloadSize m)
    (htype : h.messageType = m.messageType) :
    decodePacketBytes (encodePacketBytes h m) = .ok (h, Message.normalize m, []) := by
  obtain ⟨hsz, hsrc, hseq⟩ := hwf
  have ht1 : MessageType.toU16 h.messageType < 65536 := by
    rw [htype]
    cases m <;> simp [Message.messageType, MessageType.toU16]
  have ht2 : MessageType.ofU16 (MessageType.toU16 h.messageType) = h.messageType := by
    rw [htype]
    cases m <;> simp [Message.messageType, MessageType.toU16, MessageType.ofU16]
  unfold decodePacketBytes encodePacketBytes
  rw [header_decode_encode h (Message.encodePayload m) hsz hsrc ht2 ht1]
  simp [message_decode_encode m hm h htype]

/-- C1 witness: a broadcast GetService packet round trips (its
normalization is itself). -/
theorem packet_roundtrip_normalize_witness :
    decodePacketBytes (encodePacketBytes c1WitnessHeader .getService) =
      .ok (c1WitnessHeader, Message.normalize .getService, []) :=
  packet_roundtrip_normalize c1WitnessHeader .getService
    ⟨by decide, by decide, by decide⟩ trivial (by decide) (by decide)

/-- C3: in every encoded packet, bytes 0-1 read as a little-endian u16
give the total byte count, 36 plus the payload size; with target All,
bit 13 of the flags word at bytes 2-3 is set and the 8 target bytes
(offsets 8-15) are zero; with target Targeted(m), bit 13 is clear, bytes
8-13 hold the MAC and bytes 14-15 are zero. -/
theorem encoded_packet_layout (o : PacketOptions) (m : Message) (hm : Message.wf m) :
    (encodePacket o m).length = 36 + Message.payloadSize m ∧
    (encodePacket o m)[0]! + 256 * (encodePacket o m)[1]! = (encodePacket o m).length ∧
    (o.target = .all →
      Nat.testBit ((encodePacket o m)[2]! + 256 * (encodePacket o m)[3]!) 13 = true ∧
      ((encodePacket o m).drop 8).take 8 = List.replicate 8 0) ∧
    (∀ mac, o.target = .targeted mac →
      Nat.testBit ((encodePacket o m)[2]! + 256 * (encodePacket o m)[3]!) 13 = false ∧
      ((encodePacket o m).drop 8).take 6 = mac.toBytes ∧
      ((encodePacket o m).drop 14).take 2 = [0, 0]) := by
  have hp := encodePayload_length m hm
  have hsz := payloadSize_le m
  have hlen : (encodePacket o m).length = 36 + Message.payloadSize m := by
    simp [encodePacket, header_encode_length, hp]
  cases htarget : o.target with
  | all =>
    refine ⟨hlen, ?_, fun _ => ⟨?_, ?_⟩, fun mac hmac => by simp [htarget] at hmac⟩
    · simp [encodePacket, Header.encode, htarget, u16le, u32le, Header.PROTOCOL_NUMBER,
        Header.HEADER_SIZE, hlen, hp]
      omega
    · simp [encodePacket, Header.encode, htarget, u16le, u32le, Header.PROTOCOL_NUMBER]
      decide
    · simp [encodePacket, Header.encode, htarget, u16le, u32le]
  | targeted mac0 =>
    refine ⟨hlen, ?_, fun hall => by simp [htarget] at hall, fun mac hmac => ?_⟩
    · simp [encodePacket, Header.encode, htarget, u16le, u32le, Header.PROTOCOL_NUMBER,
        Header.HEADER_SIZE, MacAddr6.toBytes, hlen, hp]
      omega
    · injection hmac with hmac
      subst hmac
      refine ⟨?_, ?_, ?_⟩ <;>
        · simp [encodePacket, Header.encode, htarget, u16le, u32le,
            Header.PROTOCOL_NUMBER, MacAddr6.toBytes]
          try decide

/-- C3 witness: a broadcast GetService packet and a targeted GetLabel
packet satisfy the layout properties. -/
theorem encoded_packet_layout_witness :
    ((encodePacket discoveryOptions .getService).length =
        36 + Message.payloadSize .getService ∧
      (encodePacket discoveryOptions .getService)[0]! +
          256 * (encodePacket discoveryOptions .getService)[1]! =
        (encodePacket discoveryOptions .getService).length ∧
      (discoveryOptions.target = .all →
        Nat.testBit ((encodePacket discoveryOptions .getService)[2]! +
            256 * (encodePacket discoveryOptions .getService)[3]!) 13 = true ∧
        ((encodePacket discoveryOptions .getService).drop 8).take 8 =
          List.replicate 8 0) ∧
      (∀ mac, discoveryOptions.target = .targeted mac →
        Nat.testBit ((encodePacket discoveryOptions .getService)[2]! +
            256 * (encodePacket discoveryOptions .getService)[3]!) 13 = false ∧
        ((encodePacket discoveryOptions .getService).drop 8).take 6 = mac.toBytes ∧
        ((encodePacket discoveryOptions .getService).drop 14).take 2 = [0, 0])) ∧
    ((encodePacket targetedOptions .getLabel).length =
        36 + Message.payloadSize .getLabel ∧
      (encodePacket targetedOptions .getLabel)[0]! +
          256 * (encodePacket targetedOptions .getLabel)[1]! =
        (encodePacket targetedOptions .getLabel).length ∧
      (targetedOptions.target = .all →
        Nat.testBit ((encodePacket targetedOptions .getLabel)[2]! +
            256 * (encodePacket targetedOptions .getLabel)[3]!) 13 = true ∧
        ((encodePacket targetedOptions .getLabel).drop 8).take 8 =
          List.replicate 8 0) ∧
      (∀ mac, targetedOptions.target = .targeted mac →
        Nat.testBit ((encodePacket targetedOptions .getLabel)[2]! +
            256 * (encodePacket targetedOptions .getLabel)[3]!) 13 = false ∧
        ((encodePacket targetedOptions .getLabel).drop 8).take 6 = mac.toBytes ∧
        ((encodePacket targetedOptions .getLabel).drop 14).take 2 = [0, 0])) :=
  ⟨encoded_packet_layout discoveryOptions .getService trivial,
   encoded_packet_layout targetedOptions .getLabel trivial⟩

/-- C4: frame decoding over a byte buffer: with fewer than 36 bytes it
yields "need more data" (the buffer is left untouched); if the declared
little-endian u16 size at bytes 0-1 exceeds 4096 it fails with a framing
error; if fewer than the declared size bytes are available it yields
"need more data"; otherwise it parses one packet from exactly the first
size bytes and advances the buffer by size. -/
theorem codec_decode_spec (src : List Nat) :
    (src.length < 36 → Codec.decode src = .ok (none, src)) ∧
    (36 ≤ src.length →
      (4096 < src[0]! + 256 * src[1]! →
        Codec.decode src = .error (.packetTooLarge (src[0]! + 256 * src[1]!))) ∧
      (src[0]! + 256 * src[1]! ≤ 4096 → src.length < src[0]! + 256 * src[1]! →
        Codec.decode src = .ok (none, src)) ∧
      (src[0]! + 256 * src[1]! ≤ 4096 → src[0]! + 256 * src[1]! ≤ src.length →
        Codec.decode src =
          match parseFrame (src.take (src[0]! + 256 * src[1]!)) with
          | .ok item => .ok (some item, src.drop (src[0]! + 256 * src[1]!))
          | .error e => .error e)) := by
  refine ⟨fun h => ?_, fun h => ⟨fun h2 => ?_, fun h2 h3 => ?_, fun h2 h3 => ?_⟩⟩ <;>
    · unfold Codec.decode Header.HEADER_SIZE MAX_PACKET_SIZE
      split_ifs <;> first | rfl | omega

/-- C4 witness: a 3-byte buffer needs more data; a declared size of 8192
is rejected as too large. -/
theorem codec_decode_spec_witness :
    Codec.decode [1, 2, 3] = .ok (none, [1, 2, 3]) ∧
    Codec.decode oversizeBuf = .error (.packetTooLarge 8192) := by
  refine ⟨(codec_decode_spec [1, 2, 3]).1 (by decide), ?_⟩
  exact ((codec_decode_spec oversizeBuf).2 (by decide)).1 (by decide)

/-- C6: when the engine allocates a sequence number for a request that
expects a reply or acknowledgement, the returned sequence has no entry in
the pending-response table (so no entry is ever overwritten); when no
free sequence is found the request is deferred into the pending-request
slot rather than failed; and in every reachable engine state the
pending-response table holds at most 256 entries. -/
theorem sequence_allocation_safe (s : ConnState) (req : Request) (seq : Nat)
    (hseq : seq < 256) (source : Nat) :
    ((Connection.nextSequence true s).1 = some seq → s.pending ⟨seq, hseq⟩ = none) ∧
    ((Connection.nextSequence req.response.isSome s).1 = none →
      Connection.processRequest s req = ({ s with pendingRequest := some req }, .deferred)) ∧
    (Connection.Reachable source s → Connection.pendingCount s ≤ 256) := by
  refine ⟨?_, ?_, fun _ => pendingCount_le s⟩
  · intro h
    obtain ⟨hlt, hfree⟩ := nextSequence_some_free h
    exact hfree
  · intro h
    have h2 := nextSequence_none h
    unfold Connection.processRequest
    rw [h2]

set_option maxRecDepth 4096 in
/-- C6 witness: in the initial state sequence 0 is allocated and free; a
full table defers the request; the initial state satisfies the bound. -/
theorem sequence_allocation_safe_witness :
    c5State.pending ⟨0, by decide⟩ = none ∧
    Connection.processRequest fullConnState replyRequest =
      ({ fullConnState with pendingRequest := some replyRequest }, .deferred) ∧
    Connection.pendingCount c5State ≤ 256 := by
  refine ⟨(sequence_allocation_safe c5State replyRequest 0 (by decide) 1234).1 ?_,
    (sequence_allocation_safe fullConnState replyRequest 0 (by decide) 9).2.1 ?_,
    (sequence_allocation_safe c5State replyRequest 0 (by decide) 1234).2.2
      Connection.Reachable.init⟩
  · decide
  · decide

end Lifx
